import Mathlib

/-!
Verification development for the dingo-store vector-index snapshot subsystem.

The definitions below are a shallow embedding of:
  * `VectorIndexSnapshotManager` (vector_index_snapshot.cc): the snapshot
    registry (`AddSnapshot`, `DeleteSnapshot`, `GetLastSnapshot`,
    `GetSnapshots`, `IsExistSnapshot`), URI parsing (`ParseHost`,
    `ParseReaderId`), `SaveVectorIndexSnapshot`, `DownloadSnapshotFile`
    and `LaunchInstallSnapshot`;
  * `VectorIndexManager` (vector_index_manager.cc): `ReplayWalToVectorIndex`,
    `AddVectorIndex` and `LoadOrBuildVectorIndex`;
  * `DingoSafeMap` (common/safe_map.h): `InnerPutIfExists` / `PutIfExists`.

C++ `std::map<uint64_t, V>` values are embedded as association lists sorted
ascending by key (`mapFind` / `mapInsert` / `mapErase` mirror `find`,
`operator[]`-style insert and `erase`); `butil::FlatMap` (a hash map) is
embedded as an association list with `seek` / overwrite semantics.
External effects (pipe, fork, child exit status, file I/O, rename, RPC) are
oracles carried in environment records; the filesystem footprint of a call
is tracked through the `tmpCreated` / `tmpRemoved` / `renamed` fields of
result records.  Machine integers are embedded as `Nat` (log ids and
reader ids are far below 2^64 on every path considered; `strtoull` models
the 2^64 saturation/wrap explicitly).
-/

/-- Error codes from proto/error.proto. -/
def OK : Nat := 0

/-- EINTERNAL from proto/error.proto. -/
def EINTERNAL : Nat := 10000

/-- EILLEGAL_PARAMTETERS from proto/error.proto (sic). -/
def EILLEGAL_PARAMTETERS : Nat := 10010

/-- EVECTOR_NOT_SUPPORT from proto/error.proto. -/
def EVECTOR_NOT_SUPPORT : Nat := 70001

/-- EVECTOR_SNAPSHOT_NOT_FOUND from proto/error.proto. -/
def EVECTOR_SNAPSHOT_NOT_FOUND : Nat := 70008

/-- EVECTOR_SNAPSHOT_EXIST from proto/error.proto. -/
def EVECTOR_SNAPSHOT_EXIST : Nat := 70015

/-- EVECTOR_NOT_NEED_SNAPSHOT from proto/error.proto. -/
def EVECTOR_NOT_NEED_SNAPSHOT : Nat := 70016

/-- Lookup in an association list embedding a `std::map<uint64_t, V>`
(`find`): returns the value stored under the first matching key. -/
def mapFind {α : Type} : List (Nat × α) → Nat → Option α
  | [], _ => none
  | (k', v) :: t, k => if k' = k then some v else mapFind t k

/-- Sorted insert-or-assign into an association list embedding a
`std::map<uint64_t, V>` (`m[k] = v`): keys are kept in ascending order. -/
def mapInsert {α : Type} : List (Nat × α) → Nat → α → List (Nat × α)
  | [], k, v => [(k, v)]
  | (k', v') :: t, k, v =>
    if k < k' then (k, v) :: (k', v') :: t
    else if k' = k then (k, v) :: t
    else (k', v') :: mapInsert t k v

/-- Erase of the first entry with the given key, embedding
`m.erase(m.find(k))` on a `std::map` (keys are unique there). -/
def mapErase {α : Type} : List (Nat × α) → Nat → List (Nat × α)
  | [], _ => []
  | (k', v) :: t, k => if k' = k then t else (k', v) :: mapErase t k

/-- The key `k` is below the head key of the list (vacuously true for `[]`). -/
def ltHead {α : Type} (k : Nat) : List (Nat × α) → Bool
  | [] => true
  | (k', _) :: _ => decide (k < k')

/-- Keys of an association list are strictly ascending (the `std::map`
representation invariant). -/
def keysSorted {α : Type} : List (Nat × α) → Bool
  | [] => true
  | (k, _) :: t => ltHead k t && keysSorted t

/-- Descriptor of one on-disk snapshot directory
(`vector_index::SnapshotMeta`, vector_index_snapshot.cc lines 53-85).
`snapshot_log_id` is the value `Init()` parses from the trailing
`snapshot_<020d>` path component. -/
structure SnapshotMeta where
  vector_index_id : Nat
  snapshot_log_id : Nat
  path : String
deriving DecidableEq

/-- Inner `std::map<uint64_t, SnapshotMetaPtr>` of the registry. -/
abbrev InnerSnapshots : Type := List (Nat × SnapshotMeta)

/-- The registry field `snapshot_maps_` of `VectorIndexSnapshotManager`:
`std::map<uint64_t, std::map<uint64_t, SnapshotMetaPtr>>`. -/
abbrev SnapshotMap : Type := List (Nat × InnerSnapshots)

/-- VectorIndexSnapshotManager::AddSnapshot (lines 778-797): inserts unless
an entry with the same `(vector_index_id, snapshot_log_id)` exists; returns
whether it inserted. -/
def AddSnapshot (reg : SnapshotMap) (s : SnapshotMeta) : SnapshotMap × Bool :=
  match mapFind reg s.vector_index_id with
  | none =>
    (mapInsert reg s.vector_index_id [(s.snapshot_log_id, s)], true)
  | some inner =>
    match mapFind inner s.snapshot_log_id with
    | some _ => (reg, false)
    | none =>
      (mapInsert reg s.vector_index_id
        (mapInsert inner s.snapshot_log_id s), true)

/-- VectorIndexSnapshotManager::DeleteSnapshot (lines 799-811): erases the
exact `(vector_index_id, snapshot_log_id)` entry when present. -/
def DeleteSnapshot (reg : SnapshotMap) (s : SnapshotMeta) : SnapshotMap :=
  match mapFind reg s.vector_index_id with
  | none => reg
  | some inner =>
    match mapFind inner s.snapshot_log_id with
    | none => reg
    | some _ =>
      mapInsert reg s.vector_index_id (mapErase inner s.snapshot_log_id)

/-- VectorIndexSnapshotManager::GetLastSnapshot (lines 824-836): on a
nonempty inner map returns `rbegin()->second`, the entry with the greatest
key (the last entry in ascending key order). -/
def GetLastSnapshot (reg : SnapshotMap) (vector_index_id : Nat) :
    Option SnapshotMeta :=
  match mapFind reg vector_index_id with
  | none => none
  | some inner =>
    match inner.getLast? with
    | none => none
    | some e => some e.2

/-- VectorIndexSnapshotManager::GetSnapshots (lines 838-851): all stored
snapshots of an index in ascending snapshot-log-id order. -/
def GetSnapshots (reg : SnapshotMap) (vector_index_id : Nat) :
    List SnapshotMeta :=
  match mapFind reg vector_index_id with
  | none => []
  | some inner => inner.map (fun e => e.2)

/-- VectorIndexSnapshotManager::IsExistSnapshot (lines 853-860): false when
no snapshot is stored, else `snapshot_log_id <= last->SnapshotLogId()`. -/
def IsExistSnapshot (reg : SnapshotMap) (vector_index_id snapshot_log_id : Nat) :
    Bool :=
  match GetLastSnapshot reg vector_index_id with
  | none => false
  | some s => decide (snapshot_log_id ≤ s.snapshot_log_id)

/-- One inner registry map is well formed: keys ascend and every stored
meta carries the owning index id and its own key as log id (which is how
`AddSnapshot` keys entries). -/
def innerWF (vector_index_id : Nat) (inner : InnerSnapshots) : Bool :=
  keysSorted inner &&
    inner.all (fun e =>
      decide (e.2.vector_index_id = vector_index_id) &&
        decide (e.2.snapshot_log_id = e.1))

/-- The registry is well formed: outer keys ascend and every inner map is
well formed for its index id. -/
def regWF (reg : SnapshotMap) : Bool :=
  keysSorted reg && reg.all (fun e => innerWF e.1 e.2)

/-- The greatest stored snapshot log id of an index (0 when none). -/
def maxSnapshotLogId (reg : SnapshotMap) (vector_index_id : Nat) : Nat :=
  ((GetSnapshots reg vector_index_id).map
    (fun s => s.snapshot_log_id)).foldr Nat.max 0

/-- The stale-purge sequence shared verbatim by the tails of
`SaveVectorIndexSnapshot` (lines 693-709) and `DownloadSnapshotFile`
(lines 498-514): snapshot the current registry entries of the index into a
stale list, `AddSnapshot` the new meta (failure means a concurrent equal
log id snapshot: caller returns `EVECTOR_SNAPSHOT_EXIST`), then
`DeleteSnapshot` every stale entry. -/
def RotateSnapshots (reg : SnapshotMap) (s : SnapshotMeta) :
    SnapshotMap × Bool :=
  let stale := GetSnapshots reg s.vector_index_id
  match AddSnapshot reg s with
  | (reg1, false) => (reg1, false)
  | (reg1, true) => (stale.foldl DeleteSnapshot reg1, true)

/-- Zero-pad to 20 decimal digits, mirroring the `{:020}` format used for
snapshot directory names. -/
def pad20 (n : Nat) : String :=
  let s := toString n
  String.mk (List.replicate (20 - s.length) '0') ++ s

/-- VectorIndexSnapshotManager::GetSnapshotNewPath (lines 193-195):
`<index_root>/<id>/snapshot_<020d log_id>`; the index root is passed in
explicitly instead of being read from the server singleton. -/
def GetSnapshotNewPath (root : String) (vector_index_id snapshot_log_id : Nat) :
    String :=
  root ++ "/" ++ toString vector_index_id ++ "/snapshot_" ++ pad20 snapshot_log_id

/-- Modelled from the spec: the in-memory `VectorIndex` collaborator
(§6 of the spec; the class itself is not under src/, only its callers).
Only the fields the snapshot subsystem touches are kept. -/
structure VIdxState where
  id : Nat
  applyLogIndex : Nat
  snapshotLogIndex : Nat
  snapshotDoing : Bool
  writeLocked : Bool
deriving DecidableEq

/-- Modelled from the spec: `snapshot_doing()` reads the boolean
single-writer guard flag of the index. -/
def SnapshotDoing (v : VIdxState) : Bool := v.snapshotDoing

/-- Modelled from the spec: `set_snapshot_log_index(u64)` stores a 64-bit
snapshot log index.  The source calls it at lines 533-534 with the C++
literals `true` / `false`, which convert to the integers 1 / 0. -/
def SetSnapshotLogIndex (v : VIdxState) (n : Nat) : VIdxState :=
  { v with snapshotLogIndex := n }

/-- Modelled from the spec: `lock_write()` on the index. -/
def LockWrite (v : VIdxState) : VIdxState := { v with writeLocked := true }

/-- Modelled from the spec: `unlock_write()` on the index. -/
def UnlockWrite (v : VIdxState) : VIdxState := { v with writeLocked := false }

/-- Oracles for the external effects of `SaveVectorIndexSnapshot`:
`pipe(2)`, `fork(2)`, the child's exit status, the child's
`vector_index->Save` result code, opening the meta file, and
`Helper::Rename` (whose status object lives outside src/, so only its
non-OK error code is carried); `initOk` is the `new_snapshot->Init()`
branch. `root` is the server index path. -/
structure SaveEnv where
  root : String
  pipeOk : Bool
  forkOk : Bool
  childExitOk : Bool
  childSaveCode : Nat
  metaOpenOk : Bool
  renameOk : Bool
  renameErrCode : Nat
  initOk : Bool
deriving DecidableEq

/-- Outcome of one `SaveVectorIndexSnapshot` call: final index state,
final registry, status code and message, the `snapshot_log_index` output
parameter (set only on the paths that assign it), and the filesystem
footprint of the call. -/
structure SaveResult where
  vi : VIdxState
  reg : SnapshotMap
  status : Nat
  msg : String
  out : Option Nat
  tmpCreated : Bool
  tmpRemoved : Bool
  renamed : Bool
deriving DecidableEq

/-- VectorIndexSnapshotManager::SaveVectorIndexSnapshot
(vector_index_snapshot.cc lines 520-724), null-check elided (the index is
given).  Faithful points: the guard checks `SnapshotDoing()` but then
calls `SetSnapshotLogIndex(true)` — the C++ bool argument converts to the
integer 1 — and the `ON_SCOPE_EXIT` lambda calls
`SetSnapshotLogIndex(false)`, i.e. stores 0, on every return after the
guard; the write lock is released on the early-exist, pipe-failure and
fork-failure paths and directly after a successful fork; `EVECTOR_NOT_SUPPORT`
from the child's save is mapped to success; the meta-open and rename
failure paths do not remove the tmp directory. -/
def SaveVectorIndexSnapshot (env : SaveEnv) (vi0 : VIdxState)
    (reg : SnapshotMap) : SaveResult :=
  if SnapshotDoing vi0 then
    { vi := vi0, reg := reg, status := EINTERNAL,
      msg := "Save vector index is busy.", out := none,
      tmpCreated := false, tmpRemoved := false, renamed := false }
  else
    let vi1 := SetSnapshotLogIndex vi0 1
    let vi2 := LockWrite vi1
    let apply_log_index := vi2.applyLogIndex
    if IsExistSnapshot reg vi2.id apply_log_index then
      { vi := SetSnapshotLogIndex (UnlockWrite vi2) 0, reg := reg,
        status := OK, msg := "", out := some apply_log_index,
        tmpCreated := false, tmpRemoved := false, renamed := false }
    else if !env.pipeOk then
      { vi := SetSnapshotLogIndex (UnlockWrite vi2) 0, reg := reg,
        status := EINTERNAL,
        msg := "Save vector index failed, create pipe failed", out := none,
        tmpCreated := true, tmpRemoved := true, renamed := false }
    else if !env.forkOk then
      { vi := SetSnapshotLogIndex (UnlockWrite vi2) 0, reg := reg,
        status := EINTERNAL, msg := "Save vector index failed, fork failed",
        out := none, tmpCreated := true, tmpRemoved := true, renamed := false }
    else
      let vi3 := UnlockWrite vi2
      if !env.childExitOk then
        { vi := SetSnapshotLogIndex vi3 0, reg := reg, status := EINTERNAL,
          msg := "Save vector index failed, child process encountered an error",
          out := none, tmpCreated := true, tmpRemoved := true, renamed := false }
      else
        let childCode :=
          if env.childSaveCode = EVECTOR_NOT_SUPPORT then OK
          else env.childSaveCode
        if childCode ≠ OK then
          { vi := SetSnapshotLogIndex vi3 0, reg := reg, status := childCode,
            msg := "child save failed", out := none, tmpCreated := true,
            tmpRemoved := true, renamed := false }
        else if !env.metaOpenOk then
          { vi := SetSnapshotLogIndex vi3 0, reg := reg, status := EINTERNAL,
            msg := "Open vector index file log_id file failed", out := none,
            tmpCreated := true, tmpRemoved := false, renamed := false }
        else if !env.renameOk then
          { vi := SetSnapshotLogIndex vi3 0, reg := reg,
            status := env.renameErrCode, msg := "rename failed", out := none,
            tmpCreated := true, tmpRemoved := false, renamed := false }
        else if !env.initOk then
          { vi := SetSnapshotLogIndex vi3 0, reg := reg, status := EINTERNAL,
            msg := "Init snapshot failed", out := none, tmpCreated := true,
            tmpRemoved := false, renamed := true }
        else
          let newMeta : SnapshotMeta :=
            ⟨vi3.id, apply_log_index,
              GetSnapshotNewPath env.root vi3.id apply_log_index⟩
          match RotateSnapshots reg newMeta with
          | (reg1, false) =>
            { vi := SetSnapshotLogIndex vi3 0, reg := reg1,
              status := EVECTOR_SNAPSHOT_EXIST,
              msg := "Already exist vector index snapshot", out := none,
              tmpCreated := true, tmpRemoved := false, renamed := true }
          | (reg1, true) =>
            { vi := SetSnapshotLogIndex vi3 0, reg := reg1, status := OK,
              msg := "", out := some apply_log_index, tmpCreated := true,
              tmpRemoved := false, renamed := true }

/-- Split a character list at every occurrence of `sep`, keeping empty
pieces, with `acc` the (reversed) piece being built. -/
def splitCharAux (sep : Char) : List Char → List Char → List (List Char)
  | [], acc => [acc.reverse]
  | c :: t, acc =>
    if c = sep then acc.reverse :: splitCharAux sep t []
    else splitCharAux sep t (c :: acc)

/-- Modelled from the spec: `butil::SplitString(str, sep, &pieces)`
(external library), which keeps empty pieces — contiguous separators and
leading/trailing separators produce empty strings. -/
def splitString (sep : Char) (s : String) : List String :=
  (splitCharAux sep s.data []).map (fun cs => String.mk cs)

/-- C-locale whitespace as skipped by `strtoull` (space, \t, \n, \v, \f, \r). -/
def isSpaceC (c : Char) : Bool :=
  c.toNat = 32 || c.toNat = 9 || c.toNat = 10 || c.toNat = 11 ||
    c.toNat = 12 || c.toNat = 13

/-- ASCII decimal digit. -/
def isDigitC (c : Char) : Bool :=
  decide (48 ≤ c.toNat) && decide (c.toNat ≤ 57)

/-- Value of an ASCII digit string read left to right. -/
def natOfDigitList (cs : List Char) : Nat :=
  cs.foldl (fun a c => a * 10 + (c.toNat - 48)) 0

/-- Value of an ASCII digit string read left to right. -/
def natOfDigits (s : String) : Nat := natOfDigitList s.data

/-- Optional sign at the head of the remaining characters: returns
(negative?, rest, consumed-length-of-sign). -/
def signSplit : List Char → Bool × List Char × Nat
  | [] => (false, [], 0)
  | c :: t =>
    if c.toNat = 45 then (true, t, 1)
    else if c.toNat = 43 then (false, t, 1)
    else (false, c :: t, 0)

/-- Modelled from the spec: C `strtoull(str, &end, 10)` (external libc).
Skips leading C whitespace, accepts an optional sign, then reads the
longest decimal-digit run; the magnitude saturates at `ULLONG_MAX` and a
negative sign negates modulo 2^64.  Returns `(value, end - str)`; when no
digits are read nothing is consumed (`end == str`) and the value is 0. -/
def strtoull10 (s : String) : Nat × Nat :=
  let cs := s.data
  let ws := cs.takeWhile isSpaceC
  let rest := cs.dropWhile isSpaceC
  let sgn := signSplit rest
  let digits := sgn.2.1.takeWhile isDigitC
  if digits.isEmpty then (0, 0)
  else
    let n := natOfDigitList digits
    let mag := if n < 2 ^ 64 then n else 2 ^ 64 - 1
    let v := if sgn.1 then (2 ^ 64 - mag) % 2 ^ 64 else mag
    (v, ws.length + sgn.2.2 + digits.length)

/-- A `butil::EndPoint`; the default-constructed value is the zero
endpoint (any host, port 0). -/
structure EndPoint where
  host : String
  port : Nat
deriving DecidableEq

/-- The default-constructed (zero) endpoint. -/
def zeroEndPoint : EndPoint := ⟨"", 0⟩

/-- Modelled from the spec: `butil::str2endpoint` on a `host:port` string
(external library).  The port must be a pure decimal run within 0..65535;
on any parse failure the out-parameter is left untouched, which `ParseHost`
observes as the zero endpoint.  Hostname resolution is treated as
accepting the name verbatim. -/
def str2endpoint (s : String) : Option EndPoint :=
  match splitString ':' s with
  | [h, p] =>
    if (!p.isEmpty) && p.data.all isDigitC && decide (natOfDigits p ≤ 65535)
    then some ⟨h, natOfDigits p⟩
    else none
  | _ => none

/-- ParseHost (vector_index_snapshot.cc lines 107-121): split the URI on
'/'; fewer than 4 segments leaves the default endpoint; otherwise segment
2 is parsed as `host:port` (failure also leaves the default). -/
def ParseHost (uri : String) : EndPoint :=
  let strs := splitString '/' uri
  if strs.length < 4 then zeroEndPoint
  else
    match str2endpoint (strs.getD 2 "") with
    | some ep => ep
    | none => zeroEndPoint

/-- ParseReaderId (vector_index_snapshot.cc lines 124-141): split the URI
on '/'; fewer than 4 segments yields 0; otherwise run `strtoull` base 10
on segment 3 and yield 0 unless the whole segment was consumed
(`(end - begin) + 1 <= size` rejects them). -/
def ParseReaderId (uri : String) : Nat :=
  let strs := splitString '/' uri
  if strs.length < 4 then 0
  else
    let rs := strs.getD 3 ""
    let r := strtoull10 rs
    if r.2 + 1 ≤ rs.length then 0 else r.1

/-- The wire descriptor `pb::node::VectorIndexSnapshotMeta`. -/
structure TransferMeta where
  vector_index_id : Nat
  snapshot_log_index : Nat
  filenames : List String
deriving DecidableEq

/-- Oracles for the external effects of `DownloadSnapshotFile`: remote
file copier initialization, the chunked GetFile loop, and rename (non-OK
error code carried as for save); `initOk` is the `new_snapshot->Init()`
branch; `root` is the server index path. -/
structure DownloadEnv where
  root : String
  copierInitOk : Bool
  getFileOk : Bool
  renameOk : Bool
  renameErrCode : Nat
  initOk : Bool
deriving DecidableEq

/-- Outcome of one `DownloadSnapshotFile` call. -/
structure DownloadResult where
  reg : SnapshotMap
  status : Nat
  tmpCreated : Bool
  renamed : Bool
deriving DecidableEq

/-- VectorIndexSnapshotManager::DownloadSnapshotFile
(vector_index_snapshot.cc lines 412-517): reject a parsed reader id of 0
or endpoint port of 0; return `EVECTOR_SNAPSHOT_EXIST` if the snapshot is
already covered, both before the transfer and again after it completes;
then rename and run the rotate tail (a false `AddSnapshot` is
`EVECTOR_SNAPSHOT_EXIST` again). -/
def DownloadSnapshotFile (env : DownloadEnv) (reg : SnapshotMap)
    (uri : String) (meta : TransferMeta) : DownloadResult :=
  let reader_id := ParseReaderId uri
  let endpoint := ParseHost uri
  if reader_id = 0 ∨ endpoint.port = 0 then
    ⟨reg, EINTERNAL, false, false⟩
  else if IsExistSnapshot reg meta.vector_index_id meta.snapshot_log_index then
    ⟨reg, EVECTOR_SNAPSHOT_EXIST, false, false⟩
  else if !env.copierInitOk then
    ⟨reg, EINTERNAL, true, false⟩
  else if !env.getFileOk then
    ⟨reg, EINTERNAL, true, false⟩
  else if IsExistSnapshot reg meta.vector_index_id meta.snapshot_log_index then
    ⟨reg, EVECTOR_SNAPSHOT_EXIST, true, false⟩
  else if !env.renameOk then
    ⟨reg, env.renameErrCode, true, false⟩
  else if !env.initOk then
    ⟨reg, EINTERNAL, true, true⟩
  else
    match RotateSnapshots reg
        ⟨meta.vector_index_id, meta.snapshot_log_index,
          GetSnapshotNewPath env.root meta.vector_index_id
            meta.snapshot_log_index⟩ with
    | (reg1, false) => ⟨reg1, EVECTOR_SNAPSHOT_EXIST, true, true⟩
    | (reg1, true) => ⟨reg1, OK, true, true⟩

/-- Modelled from the spec: the process-wide `FileServiceReaderManager`
(§4.3 of the spec; the class is declared in server/file_service.h, not
under src/).  Reader ids are allocated monotonically and are never 0. -/
structure ReaderState where
  nextId : Nat
  readers : List (Nat × SnapshotMeta)
deriving DecidableEq

/-- Modelled from the spec: `AddReader` stores the handle and returns the
freshly allocated reader id. -/
def AddReader (st : ReaderState) (m : SnapshotMeta) : Nat × ReaderState :=
  (st.nextId, ⟨st.nextId + 1, (st.nextId, m) :: st.readers⟩)

/-- Modelled from the spec: `DeleteReader` removes the handle with the
given id. -/
def DeleteReader (st : ReaderState) (reader_id : Nat) : ReaderState :=
  ⟨st.nextId, st.readers.filter (fun e => decide (e.1 ≠ reader_id))⟩

/-- VectorIndexSnapshotManager::LaunchInstallSnapshot
(vector_index_snapshot.cc lines 197-239): no last snapshot is
`EVECTOR_SNAPSHOT_NOT_FOUND`; otherwise a reader is registered, then the
configured host/port are validated (an empty host or port 0 returns
`EILLEGAL_PARAMTETERS` — note the source returns there directly), and on
the RPC path the reader is deleted after `InstallVectorIndexSnapshot`
returns, whose status is passed through.  `rpcStatus` is the RPC oracle. -/
def LaunchInstallSnapshot (reg : SnapshotMap) (rs : ReaderState)
    (host : String) (port : Nat) (rpcStatus : Nat) (vector_index_id : Nat) :
    ReaderState × Nat :=
  match GetLastSnapshot reg vector_index_id with
  | none => (rs, EVECTOR_SNAPSHOT_NOT_FOUND)
  | some last =>
    let r := AddReader rs last
    if host = "" ∨ port = 0 then (r.2, EILLEGAL_PARAMTETERS)
    else (DeleteReader r.2 r.1, rpcStatus)

/-- A `pb::common::VectorWithId`: vector id plus payload values. -/
structure VectorWithId where
  id : Nat
  vector : List Int
deriving DecidableEq

/-- One raft command inside a WAL entry, as dispatched by
`ReplayWalToVectorIndex` (`VECTOR_ADD`, `VECTOR_DELETE`, anything else). -/
inductive RaftRequest where
  | vectorAdd (vectors : List VectorWithId)
  | vectorDelete (ids : List Nat)
  | other
deriving DecidableEq

/-- One WAL entry: its log index and the raft commands it carries. -/
structure LogEntry where
  index : Nat
  requests : List RaftRequest
deriving DecidableEq

/-- The in-memory index as the replay path sees it: contents plus
`apply_log_index`. -/
structure VIndex where
  contents : List VectorWithId
  applyLogIndex : Nat
deriving DecidableEq

/-- Modelled from the spec: `VectorIndex::Upsert` of one vector (the ANN
index implementations are out of scope): replace the entry with the same
id, or append. -/
def upsertOne (c : List VectorWithId) (v : VectorWithId) :
    List VectorWithId :=
  if c.any (fun w => w.id == v.id) then
    c.map (fun w => if w.id == v.id then v else w)
  else c ++ [v]

/-- Modelled from the spec: `VectorIndex::Upsert` of a batch. -/
def upsertBatch (c : List VectorWithId) (vs : List VectorWithId) :
    List VectorWithId :=
  vs.foldl upsertOne c

/-- Modelled from the spec: `VectorIndex::Delete` removes every entry
whose id is listed. -/
def deleteIds (c : List VectorWithId) (ids : List Nat) :
    List VectorWithId :=
  c.filter (fun w => !(ids.contains w.id))

/-- The index contains an entry with the given id. -/
def containsId (c : List VectorWithId) (x : Nat) : Bool :=
  c.any (fun w => w.id == x)

/-- One raft command step of `ReplayWalToVectorIndex`
(vector_index_manager.cc lines 1066-1094) over the state
(pending upsert buffer, index contents): `VECTOR_ADD` appends the
request's vectors to the buffer and flushes when the buffer size is
exactly 10000; `VECTOR_DELETE` flushes a nonempty buffer, then deletes;
other commands are skipped. -/
def replayReq (st : List VectorWithId × List VectorWithId)
    (req : RaftRequest) : List VectorWithId × List VectorWithId :=
  match req with
  | .vectorAdd vs =>
    let buf := st.1 ++ vs
    if buf.length = 10000 then ([], upsertBatch st.2 buf) else (buf, st.2)
  | .vectorDelete ids =>
    let c := if st.1.isEmpty then st.2 else upsertBatch st.2 st.1
    ([], deleteIds c ids)
  | .other => st

/-- One WAL entry step: fold the entry's commands, then record the
entry's log index as `last_log_id`. -/
def replayEntry (st : (List VectorWithId × List VectorWithId) × Nat)
    (e : LogEntry) : (List VectorWithId × List VectorWithId) × Nat :=
  (e.requests.foldl replayReq st.1, e.index)

/-- VectorIndexManager::ReplayWalToVectorIndex (vector_index_manager.cc
lines 1036-1109), restricted to its effect on the index: `last_log_id`
starts at the index's `ApplyLogIndex()`, the entries are replayed in
order, a trailing nonempty buffer is flushed, and the final
`last_log_id` is stored through `SetApplyLogIndex`.  The engine / raft
node / log-storage lookups and the WAL read are outside the embedding:
the caller passes the decoded entries. -/
def ReplayWalToVectorIndex (vi : VIndex) (entries : List LogEntry) :
    VIndex :=
  let st := entries.foldl replayEntry (([], vi.contents), vi.applyLogIndex)
  let c := if st.1.1.isEmpty then st.1.2 else upsertBatch st.1.2 st.1.1
  ⟨c, st.2⟩

/-- The spec's per-command semantics (\"translate `VectorAdd` and
`VectorDelete` raft commands into `index.upsert(...)` / `index.delete(...)`\"),
applied eagerly with no batching; used as the refinement target for the
batched replay. -/
def seqApplyReq (c : List VectorWithId) : RaftRequest → List VectorWithId
  | .vectorAdd vs => upsertBatch c vs
  | .vectorDelete ids => deleteIds c ids
  | .other => c

/-- Eager (non-batched) replay of whole entries, the spec-level
counterpart of `ReplayWalToVectorIndex`'s effect on the contents. -/
def seqReplay (c : List VectorWithId) (entries : List LogEntry) :
    List VectorWithId :=
  entries.foldl (fun c e => e.requests.foldl seqApplyReq c) c

/-- DingoSafeMap::InnerPutIfExists (common/safe_map.h lines 346-354) on
the flat-map representation: `seek` the key; absent returns 0 and leaves
the map unchanged; present overwrites in place and returns 1. -/
def InnerPutIfExists {α : Type} (m : List (Nat × α)) (k : Nat) (v : α) :
    List (Nat × α) × Nat :=
  match mapFind m k with
  | none => (m, 0)
  | some _ => (m.map (fun e => if e.1 = k then (k, v) else e), 1)

/-- DingoSafeMap::PutIfExists (common/safe_map.h lines 245-251):
`Modify` returns the inner function's value; `> 0` maps to 1, else -1. -/
def PutIfExists {α : Type} (m : List (Nat × α)) (k : Nat) (v : α) :
    List (Nat × α) × Int :=
  let r := InnerPutIfExists m k v
  (r.1, if r.2 > 0 then 1 else -1)

/-- DingoSafeMap::InnerPut (common/safe_map.h lines 325-328) on the
flat-map representation: insert-or-overwrite, always returns 1. -/
def InnerPut {α : Type} (m : List (Nat × α)) (k : Nat) (v : α) :
    List (Nat × α) :=
  match mapFind m k with
  | none => m ++ [(k, v)]
  | some _ => m.map (fun e => if e.1 = k then (k, v) else e)

/-- VectorIndexManager::AddVectorIndex (vector_index_manager.cc lines
829-834): with `force` use `Put` (always reported success), otherwise
`PutIfExists` and report whether its return is positive.  The `force`
default of the header (not under src/) is taken as false for the one-arg
calls, per the spec's publish-without-force reading. -/
def AddVectorIndex {α : Type} (m : List (Nat × α)) (k : Nat) (v : α)
    (force : Bool) : List (Nat × α) × Bool :=
  if force then (InnerPut m k v, true)
  else
    let r := PutIfExists m k v
    (r.1, decide (r.2 > 0))

/-- Oracles for `LoadOrBuildVectorIndex`: the result of
`LoadVectorIndexSnapshot` (a freshly loaded index or null), whether the
subsequent WAL replay succeeds, and the result of `BuildVectorIndex`. -/
structure LoadEnv (α : Type) where
  loadedFromSnapshot : Option α
  replayOk : Bool
  built : Option α
deriving DecidableEq

/-- VectorIndexManager::LoadOrBuildVectorIndex (vector_index_manager.cc
lines 911-971), restricted to its effect on the live vector-index map:
when the snapshot load and replay succeed the new index is published with
`AddVectorIndex(new_vector_index)` (result ignored) and OK returned;
otherwise fall through to build: a null build is `EINTERNAL`, a
successful build is likewise published with the result ignored and OK
returned.  Status updates on the online index touch only an already
present entry and do not change the map's keys. -/
def LoadOrBuildVectorIndex {α : Type} (env : LoadEnv α)
    (m : List (Nat × α)) (region_id : Nat) : List (Nat × α) × Nat :=
  match env.loadedFromSnapshot with
  | some nvi =>
    if env.replayOk then ((AddVectorIndex m region_id nvi false).1, OK)
    else
      match env.built with
      | none => (m, EINTERNAL)
      | some bvi => ((AddVectorIndex m region_id bvi false).1, OK)
  | none =>
    match env.built with
    | none => (m, EINTERNAL)
    | some bvi => ((AddVectorIndex m region_id bvi false).1, OK)

theorem mapFind_insert_self {α : Type} (m : List (Nat × α)) (k : Nat) (v : α) :
    mapFind (mapInsert m k v) k = some v := by
  induction m with
  | nil => simp [mapInsert, mapFind]
  | cons e t ih =>
    obtain ⟨k', v'⟩ := e
    by_cases h1 : k < k'
    · simp [mapInsert, mapFind, h1]
    · by_cases h2 : k' = k
      · simp [mapInsert, mapFind, h1, h2]
      · simp [mapInsert, mapFind, h1, h2, ih]

theorem mapFind_insert_ne {α : Type} (m : List (Nat × α)) (k j : Nat) (v : α)
    (h : j ≠ k) : mapFind (mapInsert m k v) j = mapFind m j := by
  have hkj : k ≠ j := Ne.symm h
  induction m with
  | nil => simp [mapInsert, mapFind, hkj]
  | cons e t ih =>
    obtain ⟨k', v'⟩ := e
    by_cases h1 : k < k'
    · simp only [mapInsert, h1, if_true]
      simp [mapFind, hkj]
    · by_cases h2 : k' = k
      · subst h2
        simp only [mapInsert, h1, if_false, if_true]
        simp [mapFind, hkj]
      · simp only [mapInsert, h1, h2, if_false]
        by_cases h3 : k' = j
        · simp [mapFind, h3]
        · simp [mapFind, h3, ih]

theorem keysSorted_cons {α : Type} (k : Nat) (v : α) (t : List (Nat × α))
    (h : keysSorted ((k, v) :: t) = true) : keysSorted t = true := by
  simp only [keysSorted, Bool.and_eq_true] at h
  exact h.2

theorem keysSorted_ltHead {α : Type} (k : Nat) (v : α) (t : List (Nat × α))
    (h : keysSorted ((k, v) :: t) = true) : ltHead k t = true := by
  simp only [keysSorted, Bool.and_eq_true] at h
  exact h.1

theorem keysSorted_head_lt {α : Type} (k : Nat) (v : α) (t : List (Nat × α))
    (h : keysSorted ((k, v) :: t) = true) :
    ∀ e ∈ t, k < e.1 := by
  induction t generalizing k v with
  | nil => intro e he; cases he
  | cons e' t' ih =>
    obtain ⟨k', v'⟩ := e'
    have hlt : k < k' := by
      have := keysSorted_ltHead k v _ h
      simpa [ltHead] using this
    have ht : keysSorted ((k', v') :: t') = true := keysSorted_cons k v _ h
    intro e he
    rcases List.mem_cons.mp he with h1 | h2
    · subst h1; exact hlt
    · exact Nat.lt_trans hlt (ih k' v' ht e h2)

theorem mapFind_mem {α : Type} (m : List (Nat × α)) (k : Nat) (v : α)
    (h : mapFind m k = some v) : (k, v) ∈ m := by
  induction m with
  | nil => simp [mapFind] at h
  | cons e t ih =>
    obtain ⟨k', v'⟩ := e
    by_cases h1 : k' = k
    · subst h1
      simp only [mapFind, if_true] at h
      cases h
      exact List.mem_cons_self _ _
    · simp only [mapFind, h1, if_false] at h
      exact List.mem_cons_of_mem _ (ih h)

theorem mapFind_eq_none_of_all_ne {α : Type} (m : List (Nat × α)) (k : Nat)
    (h : ∀ e ∈ m, e.1 ≠ k) : mapFind m k = none := by
  induction m with
  | nil => rfl
  | cons e t ih =>
    obtain ⟨k', v'⟩ := e
    have hk : k' ≠ k := h (k', v') (List.mem_cons_self _ _)
    simp only [mapFind, hk, if_false]
    exact ih (fun e he => h e (List.mem_cons_of_mem _ he))

theorem mapInsert_append_of_all_lt {α : Type} (m : List (Nat × α)) (k : Nat)
    (v : α) (h : ∀ e ∈ m, e.1 < k) : mapInsert m k v = m ++ [(k, v)] := by
  induction m with
  | nil => rfl
  | cons e t ih =>
    obtain ⟨k', v'⟩ := e
    have hk : k' < k := h (k', v') (List.mem_cons_self _ _)
    have h1 : ¬ k < k' := Nat.not_lt.mpr (Nat.le_of_lt hk)
    have h2 : k' ≠ k := Nat.ne_of_lt hk
    simp only [mapInsert, h1, h2, if_false, List.cons_append]
    rw [ih (fun e he => h e (List.mem_cons_of_mem _ he))]

theorem ltHead_insert {α : Type} (m : List (Nat × α)) (j k : Nat) (v : α)
    (hhead : ltHead j m = true) (hjk : j < k) :
    ltHead j (mapInsert m k v) = true := by
  cases m with
  | nil => simp [mapInsert, ltHead, hjk]
  | cons e t =>
    obtain ⟨k', v'⟩ := e
    simp only [ltHead, decide_eq_true_eq] at hhead
    by_cases h1 : k < k'
    · simp [mapInsert, h1, ltHead, hjk]
    · by_cases h2 : k' = k
      · simp [mapInsert, h1, h2, ltHead, hjk]
      · simp [mapInsert, h1, h2, ltHead, hhead]

theorem keysSorted_insert {α : Type} (m : List (Nat × α)) (k : Nat) (v : α)
    (h : keysSorted m = true) : keysSorted (mapInsert m k v) = true := by
  induction m with
  | nil => rfl
  | cons e t ih =>
    obtain ⟨k', v'⟩ := e
    have hhead := keysSorted_ltHead k' v' t h
    have ht := keysSorted_cons k' v' t h
    by_cases h1 : k < k'
    · simp only [mapInsert, h1, if_true]
      show (ltHead k ((k', v') :: t) && keysSorted ((k', v') :: t)) = true
      rw [Bool.and_eq_true]
      exact ⟨by simpa [ltHead] using h1, h⟩
    · by_cases h2 : k' = k
      · subst h2
        simp only [mapInsert, h1, if_true, if_false]
        show (ltHead k' t && keysSorted t) = true
        rw [Bool.and_eq_true]
        exact ⟨hhead, ht⟩
      · have hlt : k' < k := by
          rcases Nat.lt_trichotomy k k' with hc | hc | hc
          · exact absurd hc h1
          · exact absurd hc.symm h2
          · exact hc
        simp only [mapInsert, h1, h2, if_false]
        show (ltHead k' (mapInsert t k v) && keysSorted (mapInsert t k v)) = true
        rw [Bool.and_eq_true]
        exact ⟨ltHead_insert t k' k v hhead hlt, ih ht⟩

theorem mapFind_isSome_of_mem {α : Type} (m : List (Nat × α)) (e : Nat × α)
    (he : e ∈ m) : (mapFind m e.1).isSome = true := by
  induction m with
  | nil => cases he
  | cons e' t ih =>
    obtain ⟨k', v'⟩ := e'
    by_cases h1 : k' = e.1
    · simp [mapFind, h1]
    · rcases List.mem_cons.mp he with h2 | h2
      · subst h2; simp at h1
      · simp only [mapFind, h1, if_false]
        exact ih h2

theorem mem_mapInsert_self {α : Type} (m : List (Nat × α)) (k : Nat) (v : α) :
    (k, v) ∈ mapInsert m k v := by
  induction m with
  | nil => simp [mapInsert]
  | cons e t ih =>
    obtain ⟨k', v'⟩ := e
    by_cases h1 : k < k'
    · simp [mapInsert, h1]
    · by_cases h2 : k' = k
      · simp [mapInsert, h1, h2]
      · simp only [mapInsert, h1, h2, if_false]
        exact List.mem_cons_of_mem _ ih

theorem mem_of_getLast?_eq {α : Type} (l : List α) (x : α)
    (h : l.getLast? = some x) : x ∈ l := by
  rcases List.mem_getLast?_eq_getLast (Option.mem_def.mpr h) with ⟨hne, hx⟩
  rw [hx]
  exact List.getLast_mem hne

theorem keysSorted_le_getLast {α : Type} (m : List (Nat × α))
    (e last : Nat × α) (hs : keysSorted m = true) (hmem : e ∈ m)
    (hlast : m.getLast? = some last) : e.1 ≤ last.1 := by
  induction m with
  | nil => cases hmem
  | cons e0 t ih =>
    obtain ⟨k, v⟩ := e0
    cases t with
    | nil =>
      simp only [List.getLast?_singleton] at hlast
      cases hlast
      rcases List.mem_singleton.mp hmem with h
      subst h; exact Nat.le_refl _
    | cons e1 t1 =>
      have hlast' : (e1 :: t1).getLast? = some last := by
        simpa [List.getLast?_cons_cons] using hlast
      have hlast_mem : last ∈ e1 :: t1 := mem_of_getLast?_eq _ _ hlast'
      rcases List.mem_cons.mp hmem with h1 | h2
      · subst h1
        exact Nat.le_of_lt (keysSorted_head_lt _ _ _ hs last hlast_mem)
      · exact ih (keysSorted_cons _ _ _ hs) h2 hlast'

theorem keys_foldr_max {α : Type} (m : List (Nat × α)) (last : Nat × α)
    (hs : keysSorted m = true) (hlast : m.getLast? = some last) :
    (m.map (fun e => e.1)).foldr Nat.max 0 = last.1 := by
  induction m with
  | nil => cases hlast
  | cons e0 t ih =>
    obtain ⟨k, v⟩ := e0
    cases t with
    | nil =>
      simp only [List.getLast?_singleton] at hlast
      cases hlast
      simp [Nat.max_zero]
    | cons e1 t1 =>
      have hlast' : (e1 :: t1).getLast? = some last := by
        simpa [List.getLast?_cons_cons] using hlast
      have hlast_mem : last ∈ e1 :: t1 := mem_of_getLast?_eq _ _ hlast'
      have hk : k < last.1 := keysSorted_head_lt _ _ _ hs last hlast_mem
      have htail := ih (keysSorted_cons _ _ _ hs) hlast'
      simp only [List.map_cons, List.foldr_cons] at htail ⊢
      rw [htail]
      exact Nat.max_eq_right (Nat.le_of_lt hk)

theorem innerWF_fields (i : Nat) (inner : InnerSnapshots)
    (h : innerWF i inner = true) :
    ∀ e ∈ inner, e.2.vector_index_id = i ∧ e.2.snapshot_log_id = e.1 := by
  simp only [innerWF, Bool.and_eq_true, List.all_eq_true] at h
  intro e he
  have := h.2 e he
  simp only [Bool.and_eq_true, decide_eq_true_eq] at this
  exact this

theorem innerWF_sorted (i : Nat) (inner : InnerSnapshots)
    (h : innerWF i inner = true) : keysSorted inner = true := by
  simp only [innerWF, Bool.and_eq_true] at h
  exact h.1

theorem regWF_find (reg : SnapshotMap) (i : Nat) (inner : InnerSnapshots)
    (hWF : regWF reg = true) (hfind : mapFind reg i = some inner) :
    innerWF i inner = true := by
  simp only [regWF, Bool.and_eq_true, List.all_eq_true] at hWF
  exact hWF.2 (i, inner) (mapFind_mem reg i inner hfind)

theorem regWF_sorted (reg : SnapshotMap) (hWF : regWF reg = true) :
    keysSorted reg = true := by
  simp only [regWF, Bool.and_eq_true] at hWF
  exact hWF.1

theorem getSnapshots_max (reg : SnapshotMap) (i : Nat)
    (inner : InnerSnapshots) (last : Nat × SnapshotMeta)
    (hWF : regWF reg = true) (hfind : mapFind reg i = some inner)
    (hlast : inner.getLast? = some last) :
    maxSnapshotLogId reg i = last.1 := by
  have hwfi := regWF_find reg i inner hWF hfind
  have hsorted := innerWF_sorted i inner hwfi
  have hfields := innerWF_fields i inner hwfi
  unfold maxSnapshotLogId GetSnapshots
  rw [hfind]
  rw [List.map_map]
  have hcongr : inner.map ((fun s => s.snapshot_log_id) ∘ (fun e => e.2))
      = inner.map (fun e => e.1) := by
    apply List.map_congr_left
    intro e he
    exact (hfields e he).2
  rw [hcongr]
  exact keys_foldr_max inner last hsorted hlast

/-- C8: `IsExistSnapshot(i, l)` is true exactly when the registry stores at
least one snapshot for `i` and `l` is at most the greatest stored snapshot
log id for `i`. -/
theorem is_exist_snapshot_spec (reg : SnapshotMap) (i l : Nat)
    (hWF : regWF reg = true) :
    IsExistSnapshot reg i l = true ↔
      (GetSnapshots reg i ≠ [] ∧ l ≤ maxSnapshotLogId reg i) := by
  cases hfind : mapFind reg i with
  | none =>
    unfold IsExistSnapshot GetLastSnapshot GetSnapshots
    rw [hfind]
    simp
  | some inner =>
    have hwfi := regWF_find reg i inner hWF hfind
    have hfields := innerWF_fields i inner hwfi
    cases hlast : inner.getLast? with
    | none =>
      have hnil : inner = [] := by
        cases inner with
        | nil => rfl
        | cons e t => simp at hlast
      subst hnil
      unfold IsExistSnapshot GetLastSnapshot GetSnapshots
      rw [hfind]
      simp
    | some last =>
      have hmem := mem_of_getLast?_eq _ _ hlast
      have hlog : last.2.snapshot_log_id = last.1 := (hfields last hmem).2
      have hmax := getSnapshots_max reg i inner last hWF hfind hlast
      have hne : GetSnapshots reg i ≠ [] := by
        unfold GetSnapshots
        rw [hfind]
        intro hc
        rw [List.map_eq_nil_iff] at hc
        subst hc
        cases hlast
      have hGL : GetLastSnapshot reg i = some last.2 := by
        unfold GetLastSnapshot
        rw [hfind]
        simp [hlast]
      have hIE : IsExistSnapshot reg i l
          = decide (l ≤ last.2.snapshot_log_id) := by
        unfold IsExistSnapshot
        rw [hGL]
      rw [hIE, hmax]
      simp only [decide_eq_true_eq, hlog]
      exact ⟨fun hle => ⟨hne, hle⟩, fun hh => hh.2⟩

/-- C9: `AddSnapshot` inserts unless the same `(vector_index_id,
snapshot_log_id)` pair is already stored, returns true exactly when it
inserted and leaves the registry unchanged when it returns false; and
`GetLastSnapshot` returns the stored snapshot with the greatest snapshot
log id, or none when the index has no stored snapshot. -/
theorem add_snapshot_get_last_spec (reg : SnapshotMap) (s : SnapshotMeta)
    (i : Nat) (hWF : regWF reg = true) :
    ((AddSnapshot reg s).2 = true ↔
        ¬ ∃ t ∈ GetSnapshots reg s.vector_index_id,
            t.snapshot_log_id = s.snapshot_log_id)
    ∧ ((AddSnapshot reg s).2 = false → (AddSnapshot reg s).1 = reg)
    ∧ ((AddSnapshot reg s).2 = true →
        s ∈ GetSnapshots (AddSnapshot reg s).1 s.vector_index_id)
    ∧ (GetSnapshots reg i = [] → GetLastSnapshot reg i = none)
    ∧ (∀ t, GetLastSnapshot reg i = some t →
        t ∈ GetSnapshots reg i ∧
          ∀ u ∈ GetSnapshots reg i, u.snapshot_log_id ≤ t.snapshot_log_id) := by
  refine ⟨?_, ?_, ?_, ?_, ?_⟩
  · -- returns true iff the pair is not stored yet
    cases hfo : mapFind reg s.vector_index_id with
    | none =>
      have hAdd : (AddSnapshot reg s).2 = true := by
        unfold AddSnapshot
        rw [hfo]
      have hGS : GetSnapshots reg s.vector_index_id = [] := by
        unfold GetSnapshots
        rw [hfo]
      rw [hAdd, hGS]
      simp
    | some inner =>
      have hfields := innerWF_fields _ inner (regWF_find _ _ inner hWF hfo)
      cases hfi : mapFind inner s.snapshot_log_id with
      | some t' =>
        have hAdd : (AddSnapshot reg s).2 = false := by
          unfold AddSnapshot
          rw [hfo]
          simp [hfi]
        have hmem : (s.snapshot_log_id, t') ∈ inner := mapFind_mem _ _ _ hfi
        have hGS : GetSnapshots reg s.vector_index_id = inner.map (fun e => e.2) := by
          unfold GetSnapshots
          rw [hfo]
        rw [hAdd, hGS]
        simp only [Bool.false_eq_true, false_iff, not_not]
        refine ⟨t', List.mem_map.mpr ⟨(s.snapshot_log_id, t'), hmem, rfl⟩, ?_⟩
        exact (hfields _ hmem).2
      | none =>
        have hAdd : (AddSnapshot reg s).2 = true := by
          unfold AddSnapshot
          rw [hfo]
          simp [hfi]
        have hGS : GetSnapshots reg s.vector_index_id = inner.map (fun e => e.2) := by
          unfold GetSnapshots
          rw [hfo]
        rw [hAdd, hGS]
        simp only [true_iff]
        rintro ⟨t, htmem, htlog⟩
        rcases List.mem_map.mp htmem with ⟨e, hemem, het⟩
        have he1 : e.1 = s.snapshot_log_id := by
          have := (hfields e hemem).2
          rw [het] at this
          rw [← this, htlog]
        have := mapFind_isSome_of_mem inner e hemem
        rw [he1, hfi] at this
        cases this
  · -- false leaves the registry unchanged
    cases hfo : mapFind reg s.vector_index_id with
    | none =>
      intro hb
      have : (AddSnapshot reg s).2 = true := by
        unfold AddSnapshot
        rw [hfo]
      rw [this] at hb
      cases hb
    | some inner =>
      cases hfi : mapFind inner s.snapshot_log_id with
      | some t' =>
        intro _
        unfold AddSnapshot
        rw [hfo]
        simp [hfi]
      | none =>
        intro hb
        have : (AddSnapshot reg s).2 = true := by
          unfold AddSnapshot
          rw [hfo]
          simp [hfi]
        rw [this] at hb
        cases hb
  · -- true puts the new snapshot into the stored list
    cases hfo : mapFind reg s.vector_index_id with
    | none =>
      intro _
      have hAdd : (AddSnapshot reg s).1
          = mapInsert reg s.vector_index_id [(s.snapshot_log_id, s)] := by
        unfold AddSnapshot
        rw [hfo]
      rw [hAdd]
      unfold GetSnapshots
      rw [mapFind_insert_self]
      simp
    | some inner =>
      cases hfi : mapFind inner s.snapshot_log_id with
      | some t' =>
        intro hb
        have : (AddSnapshot reg s).2 = false := by
          unfold AddSnapshot
          rw [hfo]
          simp [hfi]
        rw [this] at hb
        cases hb
      | none =>
        intro _
        have hAdd : (AddSnapshot reg s).1
            = mapInsert reg s.vector_index_id
                (mapInsert inner s.snapshot_log_id s) := by
          unfold AddSnapshot
          rw [hfo]
          simp [hfi]
        rw [hAdd]
        unfold GetSnapshots
        rw [mapFind_insert_self]
        exact List.mem_map.mpr
          ⟨(s.snapshot_log_id, s), mem_mapInsert_self _ _ _, rfl⟩
  · -- empty stored list means no last snapshot
    intro hGS
    cases hfo : mapFind reg i with
    | none =>
      unfold GetLastSnapshot
      rw [hfo]
    | some inner =>
      unfold GetSnapshots at hGS
      rw [hfo] at hGS
      have : inner = [] := by
        rwa [List.map_eq_nil_iff] at hGS
      subst this
      unfold GetLastSnapshot
      rw [hfo]
      rfl
  · -- the last snapshot is stored and has the greatest log id
    intro t hGL
    cases hfo : mapFind reg i with
    | none =>
      unfold GetLastSnapshot at hGL
      rw [hfo] at hGL
      cases hGL
    | some inner =>
      have hfields := innerWF_fields _ inner (regWF_find _ _ inner hWF hfo)
      have hsorted := innerWF_sorted _ inner (regWF_find _ _ inner hWF hfo)
      cases hlast : inner.getLast? with
      | none =>
        have hnone : GetLastSnapshot reg i = none := by
          unfold GetLastSnapshot
          rw [hfo]
          simp [hlast]
        rw [hnone] at hGL
        cases hGL
      | some last =>
        have hGLeq : GetLastSnapshot reg i = some last.2 := by
          unfold GetLastSnapshot
          rw [hfo]
          simp [hlast]
        rw [hGLeq] at hGL
        simp only [Option.some.injEq] at hGL
        have hlmem : last ∈ inner := mem_of_getLast?_eq _ _ hlast
        have hGS : GetSnapshots reg i = inner.map (fun e => e.2) := by
          unfold GetSnapshots
          rw [hfo]
        constructor
        · rw [hGS, ← hGL]
          exact List.mem_map.mpr ⟨last, hlmem, rfl⟩
        · intro u humem
          rw [hGS] at humem
          rcases List.mem_map.mp humem with ⟨e, hemem, heu⟩
          have hue : u.snapshot_log_id = e.1 := by
            rw [← heu]
            exact (hfields e hemem).2
          have hte : t.snapshot_log_id = last.1 := by
            rw [← hGL]
            exact (hfields last hlmem).2
          rw [hue, hte]
          exact keysSorted_le_getLast inner e last hsorted hemem hlast

theorem isExist_eq_decide (reg : SnapshotMap) (i l : Nat)
    (inner : InnerSnapshots) (last : Nat × SnapshotMeta)
    (hfo : mapFind reg i = some inner) (hlast : inner.getLast? = some last) :
    IsExistSnapshot reg i l = decide (l ≤ last.2.snapshot_log_id) := by
  unfold IsExistSnapshot GetLastSnapshot
  rw [hfo]
  simp [hlast]

theorem isExist_false_of_none (reg : SnapshotMap) (i l : Nat)
    (hfo : mapFind reg i = none) : IsExistSnapshot reg i l = false := by
  unfold IsExistSnapshot GetLastSnapshot
  rw [hfo]

theorem isExist_false_of_empty (reg : SnapshotMap) (i l : Nat)
    (hfo : mapFind reg i = some []) : IsExistSnapshot reg i l = false := by
  unfold IsExistSnapshot GetLastSnapshot
  rw [hfo]
  rfl

theorem foldl_delete_stale (i l : Nat) (s : SnapshotMeta) :
    ∀ (inner : InnerSnapshots) (reg : SnapshotMap),
      (∀ e ∈ inner, e.2.vector_index_id = i ∧ e.2.snapshot_log_id = e.1) →
      mapFind reg i = some (inner ++ [(l, s)]) →
      mapFind ((inner.map (fun e => e.2)).foldl DeleteSnapshot reg) i
        = some [(l, s)] := by
  intro inner
  induction inner with
  | nil =>
    intro reg _ hfind
    simpa using hfind
  | cons e t ih =>
    obtain ⟨k0, s0⟩ := e
    intro reg hall hfind
    have hs0 := hall (k0, s0) (List.mem_cons_self _ _)
    have hs0a : s0.vector_index_id = i := hs0.1
    have hs0b : s0.snapshot_log_id = k0 := hs0.2
    have hD : DeleteSnapshot reg s0 = mapInsert reg i (t ++ [(l, s)]) := by
      unfold DeleteSnapshot
      rw [hs0a, hfind]
      simp [mapFind, hs0b, mapErase]
    have hfold : (((k0, s0) :: t).map (fun e => e.2)).foldl DeleteSnapshot reg
        = (t.map (fun e => e.2)).foldl DeleteSnapshot (DeleteSnapshot reg s0) := by
      simp
    rw [hfold, hD]
    exact ih (mapInsert reg i (t ++ [(l, s)]))
      (fun e he => hall e (List.mem_cons_of_mem _ he))
      (mapFind_insert_self _ _ _)

theorem rotate_snapshots_fresh (reg : SnapshotMap) (i l : Nat) (p : String)
    (hWF : regWF reg = true) (hfresh : IsExistSnapshot reg i l = false) :
    (RotateSnapshots reg ⟨i, l, p⟩).2 = true
    ∧ mapFind (RotateSnapshots reg ⟨i, l, p⟩).1 i = some [(l, ⟨i, l, p⟩)] := by
  cases hfo : mapFind reg i with
  | none =>
    have hAP : RotateSnapshots reg ⟨i, l, p⟩
        = (mapInsert reg i [(l, ⟨i, l, p⟩)], true) := by
      unfold RotateSnapshots AddSnapshot GetSnapshots
      simp [hfo]
    rw [hAP]
    exact ⟨rfl, mapFind_insert_self _ _ _⟩
  | some inner =>
    have hfields := innerWF_fields _ inner (regWF_find _ _ inner hWF hfo)
    have hsorted := innerWF_sorted _ inner (regWF_find _ _ inner hWF hfo)
    cases hlast : inner.getLast? with
    | none =>
      have hnil : inner = [] := by
        cases inner with
        | nil => rfl
        | cons e0 t0 => simp at hlast
      subst hnil
      have hAP : RotateSnapshots reg ⟨i, l, p⟩
          = (mapInsert reg i [(l, ⟨i, l, p⟩)], true) := by
        unfold RotateSnapshots AddSnapshot GetSnapshots
        simp [hfo, mapFind, mapInsert]
      rw [hAP]
      exact ⟨rfl, mapFind_insert_self _ _ _⟩
    | some last =>
      have hlt : last.2.snapshot_log_id < l := by
        have hd : decide (l ≤ last.2.snapshot_log_id) = false := by
          rw [← isExist_eq_decide reg i l inner last hfo hlast]
          exact hfresh
        exact Nat.lt_of_not_le (of_decide_eq_false hd)
      have hlastmem : last ∈ inner := mem_of_getLast?_eq _ _ hlast
      have hlast1 : last.1 < l := by
        have := (hfields last hlastmem).2
        rw [← this]
        exact hlt
      have hklt : ∀ e ∈ inner, e.1 < l := by
        intro e he
        exact Nat.lt_of_le_of_lt
          (keysSorted_le_getLast inner e last hsorted he hlast) hlast1
      have hfindl : mapFind inner l = none :=
        mapFind_eq_none_of_all_ne inner l
          (fun e he => Nat.ne_of_lt (hklt e he))
      have hins : mapInsert inner l ⟨i, l, p⟩ = inner ++ [(l, ⟨i, l, p⟩)] :=
        mapInsert_append_of_all_lt inner l _ hklt
      have hAP : RotateSnapshots reg ⟨i, l, p⟩
          = ((inner.map (fun e => e.2)).foldl DeleteSnapshot
              (mapInsert reg i (inner ++ [(l, ⟨i, l, p⟩)])), true) := by
        unfold RotateSnapshots AddSnapshot GetSnapshots
        simp [hfo, hfindl, hins]
      rw [hAP]
      refine ⟨rfl, ?_⟩
      exact foldl_delete_stale i l ⟨i, l, p⟩ inner
        (mapInsert reg i (inner ++ [(l, ⟨i, l, p⟩)]))
        hfields (mapFind_insert_self _ _ _)

/-- C3: when `SaveVectorIndexSnapshot` succeeds having admitted a new
snapshot (guard passes, no covering snapshot existed, and every external
step succeeds), the registry afterwards holds exactly the newly added
snapshot for that index id: every entry present before the add was
deleted. -/
theorem save_snapshot_purges_to_single (env : SaveEnv) (vi0 : VIdxState)
    (reg : SnapshotMap) (hWF : regWF reg = true)
    (hdoing : vi0.snapshotDoing = false)
    (hfresh : IsExistSnapshot reg vi0.id vi0.applyLogIndex = false)
    (hpipe : env.pipeOk = true) (hfork : env.forkOk = true)
    (hchild : env.childExitOk = true)
    (hcode : env.childSaveCode = OK ∨ env.childSaveCode = EVECTOR_NOT_SUPPORT)
    (hmeta : env.metaOpenOk = true) (hrename : env.renameOk = true)
    (hinit : env.initOk = true) :
    (SaveVectorIndexSnapshot env vi0 reg).status = OK
    ∧ GetSnapshots (SaveVectorIndexSnapshot env vi0 reg).reg vi0.id
        = [⟨vi0.id, vi0.applyLogIndex,
            GetSnapshotNewPath env.root vi0.id vi0.applyLogIndex⟩] := by
  obtain ⟨hb, hfindAP⟩ := rotate_snapshots_fresh reg vi0.id vi0.applyLogIndex
    (GetSnapshotNewPath env.root vi0.id vi0.applyLogIndex) hWF hfresh
  rcases hAPe : RotateSnapshots reg
      ⟨vi0.id, vi0.applyLogIndex,
        GetSnapshotNewPath env.root vi0.id vi0.applyLogIndex⟩ with ⟨reg1, b⟩
  rw [hAPe] at hb hfindAP
  have hbb : b = true := hb
  subst hbb
  have hf2 : mapFind reg1 vi0.id
      = some [(vi0.applyLogIndex,
          ⟨vi0.id, vi0.applyLogIndex,
            GetSnapshotNewPath env.root vi0.id vi0.applyLogIndex⟩)] := hfindAP
  have hcc : (if env.childSaveCode = EVECTOR_NOT_SUPPORT then OK
      else env.childSaveCode) = OK := by
    rcases hcode with h | h <;> simp [h]
  have hred : SaveVectorIndexSnapshot env vi0 reg
      = { vi := SetSnapshotLogIndex
            (UnlockWrite (LockWrite (SetSnapshotLogIndex vi0 1))) 0,
          reg := reg1, status := OK, msg := "",
          out := some vi0.applyLogIndex, tmpCreated := true,
          tmpRemoved := false, renamed := true } := by
    unfold SaveVectorIndexSnapshot
    simp only [SnapshotDoing, SetSnapshotLogIndex, LockWrite, UnlockWrite,
      hdoing, hpipe, hfork, hchild, hmeta, hrename, hinit, hcc, hfresh,
      Bool.false_eq_true, if_false, Bool.not_true, ne_eq, not_true_eq_false]
    simp [hAPe]
  rw [hred]
  refine ⟨rfl, ?_⟩
  unfold GetSnapshots
  rw [hf2]
  rfl

/-- C3 witness at a concrete input: a fresh registry, a healthy
environment, index 42 at apply log index 5. -/
theorem save_snapshot_purges_to_single_witness :
    (SaveVectorIndexSnapshot ⟨"r", true, true, true, 0, true, true, 10000, true⟩
      ⟨42, 5, 3, false, false⟩ []).status = OK
    ∧ GetSnapshots (SaveVectorIndexSnapshot
        ⟨"r", true, true, true, 0, true, true, 10000, true⟩
        ⟨42, 5, 3, false, false⟩ []).reg 42
      = [⟨42, 5, GetSnapshotNewPath "r" 42 5⟩] :=
  save_snapshot_purges_to_single
    ⟨"r", true, true, true, 0, true, true, 10000, true⟩
    ⟨42, 5, 3, false, false⟩ [] (by decide) rfl rfl rfl rfl rfl
    (Or.inl rfl) rfl rfl rfl

/-- C4: when the guard passes and the registry already covers the apply
log index read under the write lock, `SaveVectorIndexSnapshot` releases
the lock and returns success with that apply log index in the
`snapshot_log_index` output, touching neither the filesystem nor the
registry. -/
theorem save_snapshot_early_exist (env : SaveEnv) (vi0 : VIdxState)
    (reg : SnapshotMap) (hdoing : vi0.snapshotDoing = false)
    (hexist : IsExistSnapshot reg vi0.id vi0.applyLogIndex = true) :
    (SaveVectorIndexSnapshot env vi0 reg).status = OK
    ∧ (SaveVectorIndexSnapshot env vi0 reg).out = some vi0.applyLogIndex
    ∧ (SaveVectorIndexSnapshot env vi0 reg).reg = reg
    ∧ (SaveVectorIndexSnapshot env vi0 reg).tmpCreated = false
    ∧ (SaveVectorIndexSnapshot env vi0 reg).renamed = false
    ∧ (SaveVectorIndexSnapshot env vi0 reg).vi.writeLocked = false := by
  have hred : SaveVectorIndexSnapshot env vi0 reg
      = { vi := SetSnapshotLogIndex
            (UnlockWrite (LockWrite (SetSnapshotLogIndex vi0 1))) 0,
          reg := reg, status := OK, msg := "",
          out := some vi0.applyLogIndex, tmpCreated := false,
          tmpRemoved := false, renamed := false } := by
    unfold SaveVectorIndexSnapshot
    simp only [SnapshotDoing, SetSnapshotLogIndex, LockWrite, UnlockWrite,
      hdoing, hexist, Bool.false_eq_true, if_false, if_true]
  rw [hred]
  exact ⟨rfl, rfl, rfl, rfl, rfl, rfl⟩

/-- C4 witness at a concrete input: registry already holds snapshot
`(42, 5)` and the index's apply log index is 5. -/
theorem save_snapshot_early_exist_witness :
    (SaveVectorIndexSnapshot ⟨"r", true, true, true, 0, true, true, 10000, true⟩
      ⟨42, 5, 3, false, false⟩ [(42, [(5, ⟨42, 5, "p"⟩)])]).status = OK
    ∧ (SaveVectorIndexSnapshot ⟨"r", true, true, true, 0, true, true, 10000, true⟩
        ⟨42, 5, 3, false, false⟩ [(42, [(5, ⟨42, 5, "p"⟩)])]).out = some 5
    ∧ (SaveVectorIndexSnapshot ⟨"r", true, true, true, 0, true, true, 10000, true⟩
        ⟨42, 5, 3, false, false⟩ [(42, [(5, ⟨42, 5, "p"⟩)])]).reg
        = [(42, [(5, ⟨42, 5, "p"⟩)])]
    ∧ (SaveVectorIndexSnapshot ⟨"r", true, true, true, 0, true, true, 10000, true⟩
        ⟨42, 5, 3, false, false⟩ [(42, [(5, ⟨42, 5, "p"⟩)])]).tmpCreated = false
    ∧ (SaveVectorIndexSnapshot ⟨"r", true, true, true, 0, true, true, 10000, true⟩
        ⟨42, 5, 3, false, false⟩ [(42, [(5, ⟨42, 5, "p"⟩)])]).renamed = false
    ∧ (SaveVectorIndexSnapshot ⟨"r", true, true, true, 0, true, true, 10000, true⟩
        ⟨42, 5, 3, false, false⟩
        [(42, [(5, ⟨42, 5, "p"⟩)])]).vi.writeLocked = false :=
  save_snapshot_early_exist
    ⟨"r", true, true, true, 0, true, true, 10000, true⟩
    ⟨42, 5, 3, false, false⟩ [(42, [(5, ⟨42, 5, "p"⟩)])] rfl (by decide)

/-- C5: `DownloadSnapshotFile` is idempotent.  With a well-formed URI, a
registry already covering `(index_id, snapshot_log_index)` makes the call
return `EVECTOR_SNAPSHOT_EXIST` without touching anything; and whenever a
call succeeds, an identical second call on the resulting registry returns
`EVECTOR_SNAPSHOT_EXIST` and admits nothing further, so at most one
snapshot is accepted across the two calls. -/
theorem download_snapshot_idempotent (env : DownloadEnv) (reg : SnapshotMap)
    (uri : String) (meta : TransferMeta) (hWF : regWF reg = true)
    (hrc : env.renameErrCode ≠ OK) :
    (ParseReaderId uri ≠ 0 → (ParseHost uri).port ≠ 0 →
      IsExistSnapshot reg meta.vector_index_id meta.snapshot_log_index = true →
      DownloadSnapshotFile env reg uri meta
        = ⟨reg, EVECTOR_SNAPSHOT_EXIST, false, false⟩)
    ∧ ((DownloadSnapshotFile env reg uri meta).status = OK →
      DownloadSnapshotFile env (DownloadSnapshotFile env reg uri meta).reg
          uri meta
        = ⟨(DownloadSnapshotFile env reg uri meta).reg,
            EVECTOR_SNAPSHOT_EXIST, false, false⟩) := by
  constructor
  · intro hrid hport hex
    have hc1 : ¬ (ParseReaderId uri = 0 ∨ (ParseHost uri).port = 0) := by
      rintro (h | h)
      · exact hrid h
      · exact hport h
    unfold DownloadSnapshotFile
    simp [hc1, hex]
  · intro hOK
    have hc1 : ¬ (ParseReaderId uri = 0 ∨ (ParseHost uri).port = 0) := by
      intro hc
      have hst : (DownloadSnapshotFile env reg uri meta).status = EINTERNAL := by
        unfold DownloadSnapshotFile
        simp [hc]
      rw [hOK] at hst
      exact absurd hst (by decide)
    have hc2 : IsExistSnapshot reg meta.vector_index_id
        meta.snapshot_log_index = false := by
      cases hx : IsExistSnapshot reg meta.vector_index_id
          meta.snapshot_log_index with
      | false => rfl
      | true =>
        exfalso
        have hst : (DownloadSnapshotFile env reg uri meta).status
            = EVECTOR_SNAPSHOT_EXIST := by
          unfold DownloadSnapshotFile
          simp [hc1, hx]
        rw [hOK] at hst
        exact absurd hst (by decide)
    have hc3 : env.copierInitOk = true := by
      cases hx : env.copierInitOk with
      | true => rfl
      | false =>
        exfalso
        have hst : (DownloadSnapshotFile env reg uri meta).status
            = EINTERNAL := by
          unfold DownloadSnapshotFile
          simp [hc1, hc2, hx]
        rw [hOK] at hst
        exact absurd hst (by decide)
    have hc4 : env.getFileOk = true := by
      cases hx : env.getFileOk with
      | true => rfl
      | false =>
        exfalso
        have hst : (DownloadSnapshotFile env reg uri meta).status
            = EINTERNAL := by
          unfold DownloadSnapshotFile
          simp [hc1, hc2, hc3, hx]
        rw [hOK] at hst
        exact absurd hst (by decide)
    have hc5 : env.renameOk = true := by
      cases hx : env.renameOk with
      | true => rfl
      | false =>
        exfalso
        have hst : (DownloadSnapshotFile env reg uri meta).status
            = env.renameErrCode := by
          unfold DownloadSnapshotFile
          simp [hc1, hc2, hc3, hc4, hx]
        rw [hOK] at hst
        exact hrc hst.symm
    have hc6 : env.initOk = true := by
      cases hx : env.initOk with
      | true => rfl
      | false =>
        exfalso
        have hst : (DownloadSnapshotFile env reg uri meta).status
            = EINTERNAL := by
          unfold DownloadSnapshotFile
          simp [hc1, hc2, hc3, hc4, hc5, hx]
        rw [hOK] at hst
        exact absurd hst (by decide)
    obtain ⟨hb, hfindAP⟩ := rotate_snapshots_fresh reg meta.vector_index_id
      meta.snapshot_log_index
      (GetSnapshotNewPath env.root meta.vector_index_id
        meta.snapshot_log_index) hWF hc2
    rcases hAPe : RotateSnapshots reg
        ⟨meta.vector_index_id, meta.snapshot_log_index,
          GetSnapshotNewPath env.root meta.vector_index_id
            meta.snapshot_log_index⟩ with ⟨reg1, b⟩
    rw [hAPe] at hb hfindAP
    have hbb : b = true := hb
    subst hbb
    have hf2 : mapFind reg1 meta.vector_index_id
        = some [(meta.snapshot_log_index,
            ⟨meta.vector_index_id, meta.snapshot_log_index,
              GetSnapshotNewPath env.root meta.vector_index_id
                meta.snapshot_log_index⟩)] := hfindAP
    have hred : DownloadSnapshotFile env reg uri meta
        = ⟨reg1, OK, true, true⟩ := by
      unfold DownloadSnapshotFile
      simp only [hc1, hc2, hc3, hc4, hc5, hc6, Bool.not_true,
        Bool.false_eq_true, if_false]
      simp [hAPe]
    have hIE2 : IsExistSnapshot reg1 meta.vector_index_id
        meta.snapshot_log_index = true := by
      rw [isExist_eq_decide reg1 meta.vector_index_id
        meta.snapshot_log_index _ _ hf2 rfl]
      simp
    rw [hred]
    unfold DownloadSnapshotFile
    simp [hc1, hIE2]

/-- C5 witness at a concrete input: a first download into an empty
registry succeeds; the identical second call returns
`EVECTOR_SNAPSHOT_EXIST` and changes nothing. -/
theorem download_snapshot_idempotent_witness :
    DownloadSnapshotFile ⟨"r", true, true, true, 10000, true⟩
        (DownloadSnapshotFile ⟨"r", true, true, true, 10000, true⟩ []
          "remote://1.2.3.4:5/7" ⟨42, 100, ["meta"]⟩).reg
        "remote://1.2.3.4:5/7" ⟨42, 100, ["meta"]⟩
      = ⟨(DownloadSnapshotFile ⟨"r", true, true, true, 10000, true⟩ []
            "remote://1.2.3.4:5/7" ⟨42, 100, ["meta"]⟩).reg,
          EVECTOR_SNAPSHOT_EXIST, false, false⟩ :=
  (download_snapshot_idempotent ⟨"r", true, true, true, 10000, true⟩ []
    "remote://1.2.3.4:5/7" ⟨42, 100, ["meta"]⟩ (by decide) (by decide)).2
    (by decide)

/-- C1 (code bug, vector_index_snapshot.cc lines 529-534): the guard
checks `SnapshotDoing()`, but the code then calls
`SetSnapshotLogIndex(true)` — writing 1 into `snapshot_log_index` — and
never `SetSnapshotDoing(true)`.  At the concrete index state
`{id 42, apply 5, snapshot_log 3, doing false}`: after the guard section
the `snapshot_doing` flag is still false, so an overlapping second call is
not rejected as busy (it runs to success), and a full call ends with
`snapshot_log_index` clobbered to 0 by the scope-exit
`SetSnapshotLogIndex(false)`. -/
theorem save_snapshot_guard_never_sets_doing :
    SnapshotDoing (LockWrite (SetSnapshotLogIndex ⟨42, 5, 3, false, false⟩ 1))
      = false
    ∧ (SaveVectorIndexSnapshot
        ⟨"r", true, true, true, 0, true, true, 10000, true⟩
        (LockWrite (SetSnapshotLogIndex ⟨42, 5, 3, false, false⟩ 1)) []).msg
      ≠ "Save vector index is busy."
    ∧ (SaveVectorIndexSnapshot
        ⟨"r", true, true, true, 0, true, true, 10000, true⟩
        (LockWrite (SetSnapshotLogIndex ⟨42, 5, 3, false, false⟩ 1)) []).status
      = OK
    ∧ (SaveVectorIndexSnapshot
        ⟨"r", true, true, true, 0, true, true, 10000, true⟩
        ⟨42, 5, 3, false, false⟩ []).vi.snapshotDoing = false
    ∧ (SaveVectorIndexSnapshot
        ⟨"r", true, true, true, 0, true, true, 10000, true⟩
        ⟨42, 5, 3, false, false⟩ []).vi.snapshotLogIndex = 0 := by
  refine ⟨rfl, ?_, by decide, by decide, by decide⟩
  decide

/-- C7 (code bug, vector_index_snapshot.cc lines 210-238): with a last
snapshot present, `LaunchInstallSnapshot` registers a reader and then, if
the configured host is empty or the port is 0, returns
`EILLEGAL_PARAMTETERS` directly — without the `DeleteReader` call that the
RPC path performs — leaking the handle; the same call with a valid host
deletes the reader. -/
theorem launch_install_leaks_reader_on_illegal_parameters :
    (LaunchInstallSnapshot [(42, [(100, ⟨42, 100, "p"⟩)])] ⟨1, []⟩ ""
        23000 0 42).2 = EILLEGAL_PARAMTETERS
    ∧ (LaunchInstallSnapshot [(42, [(100, ⟨42, 100, "p"⟩)])] ⟨1, []⟩ ""
        23000 0 42).1.readers = [(1, ⟨42, 100, "p"⟩)]
    ∧ (LaunchInstallSnapshot [(42, [(100, ⟨42, 100, "p"⟩)])] ⟨1, []⟩ "h"
        23000 0 42).1.readers = [] := by
  refine ⟨by decide, by decide, by decide⟩

theorem isSpaceC_false_of_digit (c : Char) (h : isDigitC c = true) :
    isSpaceC c = false := by
  simp only [isDigitC, Bool.and_eq_true, decide_eq_true_eq] at h
  simp only [isSpaceC, Bool.or_eq_false_iff, decide_eq_false_iff_not]
  omega

theorem signSplit_digit (c : Char) (t : List Char) (h : isDigitC c = true) :
    signSplit (c :: t) = (false, c :: t, 0) := by
  simp only [isDigitC, Bool.and_eq_true, decide_eq_true_eq] at h
  have h45 : c.toNat ≠ 45 := by omega
  have h43 : c.toNat ≠ 43 := by omega
  simp [signSplit, h45, h43]

theorem takeWhile_eq_self_of_all (p : Char → Bool) (l : List Char)
    (h : l.all p = true) : l.takeWhile p = l := by
  induction l with
  | nil => rfl
  | cons c t ih =>
    simp only [List.all_cons, Bool.and_eq_true] at h
    simp [List.takeWhile_cons, h.1, ih h.2]

theorem strtoull10_all_digits (s : String) (hne : s.data ≠ [])
    (hall : s.data.all isDigitC = true) (hlt : natOfDigits s < 2 ^ 64) :
    strtoull10 s = (natOfDigits s, s.data.length) := by
  cases hcs : s.data with
  | nil => exact absurd hcs hne
  | cons c t =>
    have hc : isDigitC c = true := by
      have := hall
      rw [hcs] at this
      simp only [List.all_cons, Bool.and_eq_true] at this
      exact this.1
    have hsp := isSpaceC_false_of_digit c hc
    have h1 : (c :: t).takeWhile isSpaceC = [] := by
      simp [List.takeWhile_cons, hsp]
    have h2 : (c :: t).dropWhile isSpaceC = c :: t := by
      simp [List.dropWhile_cons, hsp]
    have h3 := signSplit_digit c t hc
    have h4 : (c :: t).takeWhile isDigitC = c :: t :=
      takeWhile_eq_self_of_all _ _ (by rw [← hcs]; exact hall)
    have hn : natOfDigitList (c :: t) = natOfDigits s := by
      unfold natOfDigits
      rw [hcs]
    unfold strtoull10
    rw [hcs]
    simp only [h1, h2, h3, h4, List.isEmpty_cons, List.length_nil, hn]
    have hlt' : natOfDigits s < 2 ^ 64 := hlt
    simp only [hlt', if_true, Bool.false_eq_true, if_false, Nat.zero_add]

/-- C6 counterexample: the URI `remote://10.0.0.1:7/ 9` has at least 4
segments and a reader segment `\" 9\"` that is not a decimal numeral, yet
`ParseReaderId` returns 9 (strtoull skips the blank and consumes the rest
of the segment) and `ParseHost` returns the non-zero endpoint
`10.0.0.1:7` — contradicting the claim that every URI with a non-decimal
reader segment parses to the zero endpoint and reader id 0. -/
theorem uri_parse_counterexample :
    ((splitString '/' "remote://10.0.0.1:7/ 9").getD 3 "").data.all isDigitC
      = false
    ∧ ParseReaderId "remote://10.0.0.1:7/ 9" = 9
    ∧ ParseHost "remote://10.0.0.1:7/ 9" ≠ zeroEndPoint := by
  refine ⟨by decide, by decide, by decide⟩

/-- C6 as amended: splitting on '/' with fewer than 4 segments yields the
zero endpoint and reader id 0; with at least 4 segments the host comes
from segment 2 regardless of the reader segment, and segment 3 goes
through C `strtoull` base 10 — so every pure decimal segment (below 2^64)
yields its value, while whitespace- or sign-prefixed numerals may also be
accepted whole; `DownloadSnapshotFile` rejects a parsed reader id of 0 or
an endpoint port of 0 with `EINTERNAL` before touching anything. -/
theorem uri_parse_amended :
    (∀ uri : String, (splitString '/' uri).length < 4 →
        ParseHost uri = zeroEndPoint ∧ ParseReaderId uri = 0)
    ∧ (∀ uri : String, 4 ≤ (splitString '/' uri).length →
        ((splitString '/' uri).getD 3 "").data ≠ [] →
        ((splitString '/' uri).getD 3 "").data.all isDigitC = true →
        natOfDigits ((splitString '/' uri).getD 3 "") < 2 ^ 64 →
        ParseReaderId uri = natOfDigits ((splitString '/' uri).getD 3 ""))
    ∧ (∀ (env : DownloadEnv) (reg : SnapshotMap) (uri : String)
        (meta : TransferMeta),
        ParseReaderId uri = 0 ∨ (ParseHost uri).port = 0 →
        DownloadSnapshotFile env reg uri meta
          = ⟨reg, EINTERNAL, false, false⟩) := by
  refine ⟨?_, ?_, ?_⟩
  · intro uri h
    constructor
    · unfold ParseHost
      rw [if_pos h]
    · unfold ParseReaderId
      rw [if_pos h]
  · intro uri h4 hne hall hlt
    have hnl : ¬ (splitString '/' uri).length < 4 := Nat.not_lt.mpr h4
    unfold ParseReaderId
    simp only [hnl, if_false]
    rw [strtoull10_all_digits _ hne hall hlt]
    have hlen : ((splitString '/' uri).getD 3 "").length
        = ((splitString '/' uri).getD 3 "").data.length := rfl
    rw [hlen]
    simp
  · intro env reg uri meta h
    unfold DownloadSnapshotFile
    rw [if_pos h]

/-- C6 witness: a short URI parses to the zero endpoint and reader 0, and
a well-formed URI with the pure decimal reader segment \"9\" parses to 9. -/
theorem uri_parse_amended_witness :
    ParseHost "abc" = zeroEndPoint
    ∧ ParseReaderId "remote://10.0.0.1:7/9" = 9 := by
  constructor
  · exact (uri_parse_amended.1 "abc" (by decide)).1
  · have h := uri_parse_amended.2.1 "remote://10.0.0.1:7/9" (by decide)
      (by decide) (by decide) (by decide)
    rw [h]
    decide

theorem upsertBatch_append (c a b : List VectorWithId) :
    upsertBatch (upsertBatch c a) b = upsertBatch c (a ++ b) := by
  unfold upsertBatch
  rw [List.foldl_append]

theorem replayReq_abs (st : List VectorWithId × List VectorWithId)
    (req : RaftRequest) :
    upsertBatch (replayReq st req).2 (replayReq st req).1
      = seqApplyReq (upsertBatch st.2 st.1) req := by
  cases req with
  | vectorAdd vs =>
    unfold replayReq seqApplyReq
    by_cases h : (st.1 ++ vs).length = 10000
    · simp only [h, if_true]
      show upsertBatch (upsertBatch st.2 (st.1 ++ vs)) []
        = upsertBatch (upsertBatch st.2 st.1) vs
      rw [upsertBatch_append st.2 st.1 vs]
      rfl
    · simp only [h, if_false]
      exact (upsertBatch_append st.2 st.1 vs).symm
  | vectorDelete ids =>
    unfold replayReq seqApplyReq
    by_cases h : st.1.isEmpty
    · have hbe : st.1 = [] := List.isEmpty_iff.mp h
      simp only [h, if_true]
      show upsertBatch (deleteIds st.2 ids) [] = _
      rw [hbe]
      rfl
    · have hb : st.1.isEmpty = false := Bool.not_eq_true _ |>.mp h
      simp only [hb, Bool.false_eq_true, if_false]
      rfl
  | other => rfl

theorem foldl_replayReq_abs (reqs : List RaftRequest) :
    ∀ st : List VectorWithId × List VectorWithId,
      upsertBatch (reqs.foldl replayReq st).2 (reqs.foldl replayReq st).1
        = reqs.foldl seqApplyReq (upsertBatch st.2 st.1) := by
  induction reqs with
  | nil => intro st; rfl
  | cons r rs ih =>
    intro st
    simp only [List.foldl_cons]
    rw [ih (replayReq st r), replayReq_abs]

theorem foldl_replayEntry_abs (entries : List LogEntry) :
    ∀ st : (List VectorWithId × List VectorWithId) × Nat,
      upsertBatch (entries.foldl replayEntry st).1.2
          (entries.foldl replayEntry st).1.1
        = entries.foldl (fun c e => e.requests.foldl seqApplyReq c)
            (upsertBatch st.1.2 st.1.1) := by
  induction entries with
  | nil => intro st; rfl
  | cons e es ih =>
    intro st
    simp only [List.foldl_cons]
    rw [ih (replayEntry st e)]
    congr 1
    exact foldl_replayReq_abs e.requests st.1

theorem replay_contents_eq_seq (vi : VIndex) (entries : List LogEntry) :
    (ReplayWalToVectorIndex vi entries).contents
      = seqReplay vi.contents entries := by
  have h := foldl_replayEntry_abs entries (([], vi.contents), vi.applyLogIndex)
  unfold ReplayWalToVectorIndex seqReplay
  by_cases hb : (entries.foldl replayEntry
      (([], vi.contents), vi.applyLogIndex)).1.1.isEmpty
  · have hbe := List.isEmpty_iff.mp hb
    rw [hbe] at h
    simp only [hb, if_true]
    exact h
  · have hbf : (entries.foldl replayEntry
        (([], vi.contents), vi.applyLogIndex)).1.1.isEmpty = false :=
      Bool.not_eq_true _ |>.mp hb
    simp only [hbf, Bool.false_eq_true, if_false]
    exact h

theorem foldl_replayEntry_last (entries : List LogEntry)
    (h : entries ≠ []) :
    ∀ st : (List VectorWithId × List VectorWithId) × Nat,
      (entries.foldl replayEntry st).2 = (entries.getLast h).index := by
  induction entries with
  | nil => exact absurd rfl h
  | cons e es ih =>
    intro st
    cases es with
    | nil => rfl
    | cons e2 t2 =>
      rw [List.foldl_cons]
      rw [ih (by simp) (replayEntry st e)]
      rw [List.getLast_cons (by simp : (e2 :: t2) ≠ [])]

theorem containsId_deleteIds (c : List VectorWithId) (ids : List Nat)
    (x : Nat) (hx : ids.contains x = true) :
    containsId (deleteIds c ids) x = false := by
  induction c with
  | nil => rfl
  | cons v t ih =>
    unfold deleteIds at ih ⊢
    by_cases h : ids.contains v.id
    · simp only [List.filter_cons, h, Bool.not_true, Bool.false_eq_true,
        if_false]
      exact ih
    · have hvx : (v.id == x) = false := by
        rw [beq_eq_false_iff_ne]
        intro hc
        rw [hc] at h
        exact h hx
      have hcf : (ids.contains v.id) = false := Bool.not_eq_true _ |>.mp h
      simp only [List.filter_cons, hcf, Bool.not_false, if_true]
      unfold containsId at ih ⊢
      simp only [List.any_cons, hvx, Bool.false_or]
      exact ih

theorem containsId_sublist_filter (c : List VectorWithId)
    (p : VectorWithId → Bool) (x : Nat)
    (hc : containsId c x = false) :
    containsId (c.filter p) x = false := by
  unfold containsId at hc ⊢
  rw [List.any_eq_false] at hc ⊢
  intro w hw
  exact hc w (List.mem_of_mem_filter hw)

theorem containsId_upsertOne (c : List VectorWithId) (v : VectorWithId)
    (x : Nat) (hc : containsId c x = false) (hv : v.id ≠ x) :
    containsId (upsertOne c v) x = false := by
  have hvx : (v.id == x) = false := beq_eq_false_iff_ne.mpr hv
  unfold upsertOne
  by_cases h : c.any (fun w => w.id == v.id)
  · simp only [h, if_true]
    unfold containsId at hc ⊢
    rw [List.any_map, List.any_eq_false]
    rw [List.any_eq_false] at hc
    intro w hw
    simp only [Function.comp]
    by_cases hww : (w.id == v.id)
    · simp only [hww, if_true]
      simp [hvx]
    · have : (w.id == v.id) = false := Bool.not_eq_true _ |>.mp hww
      simp only [this, Bool.false_eq_true, if_false]
      exact hc w hw
  · have hfalse : (c.any fun w => w.id == v.id) = false :=
      Bool.not_eq_true _ |>.mp h
    simp only [hfalse, Bool.false_eq_true, if_false]
    unfold containsId at hc ⊢
    rw [List.any_append]
    simp [hc, hvx]

theorem containsId_upsertBatch (vs : List VectorWithId) :
    ∀ c : List VectorWithId, ∀ x : Nat, containsId c x = false →
      (∀ v ∈ vs, v.id ≠ x) → containsId (upsertBatch c vs) x = false := by
  induction vs with
  | nil => intro c x hc _; exact hc
  | cons v t ih =>
    intro c x hc hvs
    unfold upsertBatch
    simp only [List.foldl_cons]
    exact ih (upsertOne c v) x
      (containsId_upsertOne c v x hc (hvs v (List.mem_cons_self _ _)))
      (fun u hu => hvs u (List.mem_cons_of_mem _ hu))

theorem seqApplyReq_preserves_absent (c : List VectorWithId)
    (req : RaftRequest) (x : Nat) (hc : containsId c x = false)
    (hreq : ∀ vs, req = RaftRequest.vectorAdd vs → ∀ v ∈ vs, v.id ≠ x) :
    containsId (seqApplyReq c req) x = false := by
  cases req with
  | vectorAdd vs =>
    exact containsId_upsertBatch vs c x hc (hreq vs rfl)
  | vectorDelete ids =>
    exact containsId_sublist_filter c _ x hc
  | other => exact hc

theorem foldl_seqApplyReq_preserves_absent (r : List RaftRequest) :
    ∀ c : List VectorWithId, ∀ x : Nat, containsId c x = false →
      (∀ vs, RaftRequest.vectorAdd vs ∈ r → ∀ v ∈ vs, v.id ≠ x) →
      containsId (r.foldl seqApplyReq c) x = false := by
  induction r with
  | nil => intro c x hc _; exact hc
  | cons req t ih =>
    intro c x hc hr
    simp only [List.foldl_cons]
    refine ih (seqApplyReq c req) x ?_ ?_
    · refine seqApplyReq_preserves_absent c req x hc ?_
      intro vs hvs
      exact hr vs (hvs ▸ List.mem_cons_self _ _)
    · intro vs hvs
      exact hr vs (List.mem_cons_of_mem _ hvs)

theorem seqReplay_eq_flat (entries : List LogEntry) :
    ∀ c : List VectorWithId,
      seqReplay c entries
        = (entries.flatMap (fun e => e.requests)).foldl seqApplyReq c := by
  induction entries with
  | nil => intro c; rfl
  | cons e es ih =>
    intro c
    unfold seqReplay at ih ⊢
    simp only [List.foldl_cons, List.flatMap_cons, List.foldl_append]
    exact ih _

/-- C2: replaying a nonempty WAL segment leaves `apply_log_index` equal
to the log index of the last replayed entry; the batched replay (upserts
buffered up to the batch size, flushed before any delete and at the end)
has exactly the contents of the eager per-command translation; and a
vector deleted at some point and never re-added afterwards is absent from
the replayed index — in particular an add of id X followed by a later
delete of X leaves the index without X. -/
theorem replay_wal_spec (vi : VIndex) (entries : List LogEntry)
    (h : entries ≠ []) :
    (ReplayWalToVectorIndex vi entries).applyLogIndex
      = (entries.getLast h).index
    ∧ (ReplayWalToVectorIndex vi entries).contents
      = seqReplay vi.contents entries
    ∧ (∀ (x : Nat) (l r : List RaftRequest) (ids : List Nat),
        entries.flatMap (fun e => e.requests)
          = l ++ RaftRequest.vectorDelete ids :: r →
        ids.contains x = true →
        (∀ vs, RaftRequest.vectorAdd vs ∈ r → ∀ v ∈ vs, v.id ≠ x) →
        containsId (ReplayWalToVectorIndex vi entries).contents x = false) := by
  refine ⟨?_, replay_contents_eq_seq vi entries, ?_⟩
  · unfold ReplayWalToVectorIndex
    exact foldl_replayEntry_last entries h (([], vi.contents), vi.applyLogIndex)
  · intro x l r ids hflat hx hadds
    rw [replay_contents_eq_seq vi entries, seqReplay_eq_flat entries, hflat]
    rw [List.foldl_append, List.foldl_cons]
    refine foldl_seqApplyReq_preserves_absent r _ x ?_ hadds
    exact containsId_deleteIds _ ids x hx

/-- C2 witness (Scenario E of the spec): snapshot state at apply log 100,
WAL holds VectorAdd of id 1000 at index 101 and VectorDelete of 1000 at
index 102; after replay the index does not contain 1000 and
`apply_log_index = 102`. -/
theorem replay_wal_spec_witness :
    (ReplayWalToVectorIndex ⟨[], 100⟩
        [⟨101, [RaftRequest.vectorAdd [⟨1000, [1]⟩]]⟩,
          ⟨102, [RaftRequest.vectorDelete [1000]]⟩]).applyLogIndex = 102
    ∧ containsId (ReplayWalToVectorIndex ⟨[], 100⟩
        [⟨101, [RaftRequest.vectorAdd [⟨1000, [1]⟩]]⟩,
          ⟨102, [RaftRequest.vectorDelete [1000]]⟩]).contents 1000 = false := by
  have h := replay_wal_spec ⟨[], 100⟩
    [⟨101, [RaftRequest.vectorAdd [⟨1000, [1]⟩]]⟩,
      ⟨102, [RaftRequest.vectorDelete [1000]]⟩] (by simp)
  refine ⟨h.1.trans (by decide), ?_⟩
  exact h.2.2 1000 [RaftRequest.vectorAdd [⟨1000, [1]⟩]] []
    [1000] (by decide) (by decide) (by simp)

theorem mapFind_replace_self {α : Type} (m : List (Nat × α)) (k : Nat)
    (v : α) (h : (mapFind m k).isSome = true) :
    mapFind (m.map (fun e => if e.1 = k then (k, v) else e)) k = some v := by
  induction m with
  | nil => simp [mapFind] at h
  | cons e t ih =>
    obtain ⟨k', v'⟩ := e
    by_cases hk : k' = k
    · subst hk
      have hmap : ((k', v') :: t).map (fun e => if e.1 = k' then (k', v) else e)
          = (k', v) :: t.map (fun e => if e.1 = k' then (k', v) else e) := by
        simp
      rw [hmap]
      simp [mapFind]
    · simp only [mapFind, hk, if_false] at h
      simp only [List.map_cons, hk, if_false]
      simp only [mapFind, hk, if_false]
      exact ih h

/-- C10: `AddVectorIndex` without force publishes through put-if-exists
semantics — an existing entry is replaced with success reported, an
absent key leaves the map unchanged with failure reported — and
consequently `LoadOrBuildVectorIndex`, which publishes without force and
ignores the result, returns success without inserting the freshly loaded
or built index when no prior entry exists for the region id. -/
theorem add_vector_index_put_if_exists {α : Type} (m : List (Nat × α))
    (k : Nat) (v : α) (env : LoadEnv α) (region_id : Nat) :
    ((mapFind m k).isSome = true →
        (AddVectorIndex m k v false).2 = true
        ∧ mapFind (AddVectorIndex m k v false).1 k = some v)
    ∧ (mapFind m k = none → AddVectorIndex m k v false = (m, false))
    ∧ (mapFind m region_id = none →
        ((env.loadedFromSnapshot.isSome = true ∧ env.replayOk = true)
          ∨ env.built.isSome = true) →
        LoadOrBuildVectorIndex env m region_id = (m, OK)) := by
  refine ⟨?_, ?_, ?_⟩
  · intro hfind
    rcases Option.isSome_iff_exists.mp hfind with ⟨w, hw⟩
    have hred : AddVectorIndex m k v false
        = (m.map (fun e => if e.1 = k then (k, v) else e), true) := by
      unfold AddVectorIndex PutIfExists InnerPutIfExists
      simp [hw]
    rw [hred]
    exact ⟨rfl, mapFind_replace_self m k v hfind⟩
  · intro hfind
    unfold AddVectorIndex PutIfExists InnerPutIfExists
    simp [hfind]
  · intro hfind hsucc
    have hAdd : ∀ u : α, AddVectorIndex m region_id u false = (m, false) := by
      intro u
      unfold AddVectorIndex PutIfExists InnerPutIfExists
      simp [hfind]
    cases hL : env.loadedFromSnapshot with
    | some nvi =>
      cases hR : env.replayOk with
      | true =>
        unfold LoadOrBuildVectorIndex
        rw [hL]
        simp [hR, hAdd]
      | false =>
        have hB : ∃ bvi, env.built = some bvi := by
          rcases hsucc with ⟨_, hr⟩ | hb
          · rw [hR] at hr; cases hr
          · exact Option.isSome_iff_exists.mp hb
        rcases hB with ⟨bvi, hB⟩
        unfold LoadOrBuildVectorIndex
        rw [hL]
        simp [hR, hB, hAdd]
    | none =>
      have hB : ∃ bvi, env.built = some bvi := by
        rcases hsucc with ⟨hs, _⟩ | hb
        · rw [hL] at hs; simp at hs
        · exact Option.isSome_iff_exists.mp hb
      rcases hB with ⟨bvi, hB⟩
      unfold LoadOrBuildVectorIndex
      rw [hL, hB]
      simp [hAdd]

/-- C10 witness: replacing under an existing key 7 succeeds; a
load-or-build for region 42 (no entry) returns OK and leaves the map
unchanged. -/
theorem add_vector_index_put_if_exists_witness :
    (AddVectorIndex [(7, 1)] 7 (2 : Nat) false).2 = true
    ∧ mapFind (AddVectorIndex [(7, 1)] 7 (2 : Nat) false).1 7 = some 2
    ∧ LoadOrBuildVectorIndex (⟨some 5, true, none⟩ : LoadEnv Nat)
        [(7, 1)] 42 = ([(7, 1)], OK) := by
  have h := add_vector_index_put_if_exists [(7, 1)] 7 (2 : Nat)
    (⟨some 5, true, none⟩ : LoadEnv Nat) 42
  exact ⟨(h.1 (by decide)).1, (h.1 (by decide)).2,
    h.2.2 (by decide) (Or.inl ⟨by decide, by decide⟩)⟩

/-- C8 witness: a registry holding snapshot `(42, 100)` covers log id 90. -/
theorem is_exist_snapshot_spec_witness :
    IsExistSnapshot [(42, [(100, ⟨42, 100, "p"⟩)])] 42 90 = true :=
  (is_exist_snapshot_spec [(42, [(100, ⟨42, 100, "p"⟩)])] 42 90
    (by decide)).mpr (by decide)

/-- C9 witness: adding a second meta with the already stored pair
`(42, 100)` returns false and leaves the registry unchanged, and the last
snapshot of index 42 is the stored one. -/
theorem add_snapshot_get_last_spec_witness :
    (AddSnapshot [(42, [(100, ⟨42, 100, "p"⟩)])] ⟨42, 100, "q"⟩).2 = false
    ∧ (AddSnapshot [(42, [(100, ⟨42, 100, "p"⟩)])] ⟨42, 100, "q"⟩).1
        = [(42, [(100, ⟨42, 100, "p"⟩)])]
    ∧ GetLastSnapshot [(42, [(100, ⟨42, 100, "p"⟩)])] 42
        = some ⟨42, 100, "p"⟩ := by
  have h := add_snapshot_get_last_spec [(42, [(100, ⟨42, 100, "p"⟩)])]
    ⟨42, 100, "q"⟩ 42 (by decide)
  have hex : ∃ t ∈ GetSnapshots [(42, [(100, ⟨42, 100, "p"⟩)])] 42,
      t.snapshot_log_id = (⟨42, 100, "q"⟩ : SnapshotMeta).snapshot_log_id :=
    ⟨⟨42, 100, "p"⟩, by decide, rfl⟩
  have hfalse : (AddSnapshot [(42, [(100, ⟨42, 100, "p"⟩)])]
      ⟨42, 100, "q"⟩).2 = false := by
    cases hb : (AddSnapshot [(42, [(100, ⟨42, 100, "p"⟩)])]
        ⟨42, 100, "q"⟩).2 with
    | false => rfl
    | true => exact absurd hex (h.1.mp hb)
  exact ⟨hfalse, h.2.1 hfalse, by decide⟩
